import Mathlib

/-!
Verification of the heat firewall resource adapters
(`heat/engine/resources/neutron/firewall.py`) and of the policy
rule evaluator exercised by `heat/tests/test_common_policy.py`.

The firewall definitions are a shallow embedding of the Python source:
the outcome of an external API call is a value of
`Except NeutronClientException Unit`, and each handler is a pure
function of that outcome.  The policy `Enforcer` implementation is not
part of the repository snapshot (only its test suite is), so it is
modelled from the specification, as marked on each definition.
-/

/-- `NeutronClientException` from `neutronclient.common.exceptions`:
the client error carrying an HTTP status code. -/
structure NeutronClientException where
  status_code : Nat
deriving DecidableEq, Repr

/-- The observable outcome of a `handle_delete` call: either it returns
normally (the flag records whether the delete-confirmation
`TaskRunner(self._confirm_delete)()` in the `else:` branch was invoked),
or it re-raises a client exception. -/
inductive DeleteOutcome where
  | completed (confirmTaskRun : Bool)
  | raised (ex : NeutronClientException)
deriving DecidableEq, Repr

/-- A neutron client, restricted to the delete entry points the firewall
resources use.  Each call either succeeds or raises a
`NeutronClientException`. -/
structure NeutronClient where
  delete_firewall : String → Except NeutronClientException Unit
  delete_firewall_policy : String → Except NeutronClientException Unit
  delete_firewall_rule : String → Except NeutronClientException Unit

/-- `Firewall.handle_delete`: try `client.delete_firewall(self.resource_id)`;
on a `NeutronClientException` re-raise unless `status_code` is 404;
when no exception was raised, run the `_confirm_delete` task runner. -/
def Firewall.handle_delete (client : NeutronClient) (resource_id : String) :
    DeleteOutcome :=
  match client.delete_firewall resource_id with
  | Except.ok _ => DeleteOutcome.completed true
  | Except.error ex =>
      if ex.status_code ≠ 404 then DeleteOutcome.raised ex
      else DeleteOutcome.completed false

/-- `FirewallPolicy.handle_delete`: same structure over
`client.delete_firewall_policy`. -/
def FirewallPolicy.handle_delete (client : NeutronClient)
    (resource_id : String) : DeleteOutcome :=
  match client.delete_firewall_policy resource_id with
  | Except.ok _ => DeleteOutcome.completed true
  | Except.error ex =>
      if ex.status_code ≠ 404 then DeleteOutcome.raised ex
      else DeleteOutcome.completed false

/-- `FirewallRule.handle_delete`: same structure over
`client.delete_firewall_rule`. -/
def FirewallRule.handle_delete (client : NeutronClient)
    (resource_id : String) : DeleteOutcome :=
  match client.delete_firewall_rule resource_id with
  | Except.ok _ => DeleteOutcome.completed true
  | Except.error ex =>
      if ex.status_code ≠ 404 then DeleteOutcome.raised ex
      else DeleteOutcome.completed false

/-- A property diff handed to `handle_update`, as key/value pairs
(a Python dict; falsy iff empty). -/
abbrev PropDiff := List (String × String)

/-- One update call made against the neutron client: the physical
resource id, the wrapping body key (`'firewall'`, `'firewall_policy'` or
`'firewall_rule'`) and the property diff passed through. -/
structure UpdateCall where
  resource_id : String
  bodyKey : String
  prop_diff : PropDiff
deriving DecidableEq, Repr

/-- `Firewall.handle_update`: `if prop_diff:` make exactly one
`update_firewall(resource_id, {'firewall': prop_diff})` call, else none.
The unused `json_snippet` and `tmpl_diff` parameters are kept abstract. -/
def Firewall.handle_update {α β : Type} (json_snippet : α) (tmpl_diff : β)
    (resource_id : String) (prop_diff : PropDiff) : List UpdateCall :=
  if ¬ prop_diff.isEmpty then
    [{ resource_id := resource_id, bodyKey := "firewall",
       prop_diff := prop_diff }]
  else []

/-- `FirewallPolicy.handle_update`: same over `update_firewall_policy`. -/
def FirewallPolicy.handle_update {α β : Type} (json_snippet : α)
    (tmpl_diff : β) (resource_id : String) (prop_diff : PropDiff) :
    List UpdateCall :=
  if ¬ prop_diff.isEmpty then
    [{ resource_id := resource_id, bodyKey := "firewall_policy",
       prop_diff := prop_diff }]
  else []

/-- `FirewallRule.handle_update`: same over `update_firewall_rule`. -/
def FirewallRule.handle_update {α β : Type} (json_snippet : α)
    (tmpl_diff : β) (resource_id : String) (prop_diff : PropDiff) :
    List UpdateCall :=
  if ¬ prop_diff.isEmpty then
    [{ resource_id := resource_id, bodyKey := "firewall_rule",
       prop_diff := prop_diff }]
  else []

/-- Effect of a list of update calls on an abstract system state: each
call is applied in order through an arbitrary API-effect function.
A handler that makes no calls therefore leaves the state unchanged. -/
def applyUpdateCalls {σ : Type} (api : UpdateCall → σ → σ)
    (calls : List UpdateCall) (s : σ) : σ :=
  calls.foldl (fun st c => api c st) s

/-! ## Policy rule evaluator

The `Enforcer` implementation (`heat/common/policy.py` wrapping
`heat/openstack/common/policy.py`) is not present in the repository
snapshot; only its test suite `heat/tests/test_common_policy.py` is.
The definitions below are therefore modelled from the specification, as
marked on each one. -/

/-- Modelled from the spec: the rule tree of the Policy Rule Evaluator
(missing `heat/openstack/common/policy.py`) — "a tree of checks — leaf
checks (role match, field match, generic-rule match) and composite
checks (AND, OR, NOT)", plus the "always true"/"always false" checks and
a constructor for unknown rule syntax, which "fails closed". -/
inductive Check where
  | trueCheck
  | falseCheck
  | roleCheck (role : String)
  | fieldCheck (field : String) (value : String)
  | ruleCheck (name : String)
  | andCheck (left right : Check)
  | orCheck (left right : Check)
  | notCheck (child : Check)
  | unknownCheck
deriving DecidableEq, Repr

/-- Modelled from the spec: the Rule Set, a "mapping from action name to
Rule", as an association list with dictionary insert/replace semantics. -/
abbrev Rules := List (String × Check)

/-- Dictionary lookup in a Rule Set. -/
def Rules.lookup : Rules → String → Option Check
  | [], _ => none
  | (k, v) :: rest, key => if k = key then some v else Rules.lookup rest key

/-- Dictionary insertion: replace the binding of `key` if present,
otherwise append it. -/
def Rules.insert : Rules → String → Check → Rules
  | [], key, c => [(key, c)]
  | (k, v) :: rest, key, c =>
      if k = key then (key, c) :: rest
      else (k, v) :: Rules.insert rest key c

/-- Python `dict.update` semantics: fold the new entries into the
existing mapping, each new entry replacing a colliding key. -/
def Rules.update : Rules → Rules → Rules
  | rs, [] => rs
  | rs, (k, v) :: rest => Rules.update (Rules.insert rs k v) rest

/-- Modelled from the spec: the request context consumed by the
evaluator — it "must expose a role collection and arbitrary named
fields usable in field-match rules". -/
structure Context where
  roles : List String
  fields : List (String × String)
deriving DecidableEq, Repr

/-- The target of an enforcement request: arbitrary named fields. -/
abbrev Target := List (String × String)

/-- Association-list field lookup for contexts and targets. -/
def lookupField : List (String × String) → String → Option String
  | [], _ => none
  | (k, v) :: rest, key => if k = key then some v else lookupField rest key

/-- Modelled from the spec: rule evaluation (missing
`heat/openstack/common/policy.py`) — "leaf role-check succeeds iff the
context's role set contains the required role; leaf field-check succeeds
iff a named field of the context/target matches a literal; composite
checks combine child results with standard boolean short-circuit
AND/OR/NOT; unknown rule syntax fails closed".  A generic-rule check
names another rule of the Rule Set; since "lookups only consider rules
registered under the active scope", the reference is resolved under the
active scope and fails closed when absent; the `fuel` bound on that
indirection also fails closed when exhausted. -/
def Check.eval (scope : String) (fuel : Nat) (rules : Rules)
    (ctx : Context) (target : Target) : Check → Bool
  | Check.trueCheck => true
  | Check.falseCheck => false
  | Check.roleCheck role => ctx.roles.contains role
  | Check.fieldCheck field value =>
      match lookupField target field with
      | some v => v = value
      | none =>
          match lookupField ctx.fields field with
          | some v => v = value
          | none => false
  | Check.ruleCheck name =>
      match fuel with
      | 0 => false
      | Nat.succ f =>
          match Rules.lookup rules (scope ++ ":" ++ name) with
          | some c => Check.eval scope f rules ctx target c
          | none => false
  | Check.andCheck l r =>
      Check.eval scope fuel rules ctx target l &&
        Check.eval scope fuel rules ctx target r
  | Check.orCheck l r =>
      Check.eval scope fuel rules ctx target l ||
        Check.eval scope fuel rules ctx target r
  | Check.notCheck c => ! Check.eval scope fuel rules ctx target c
  | Check.unknownCheck => false
termination_by c => (fuel, sizeOf c)

/-- The observable outcome of `enforce`: the action is allowed (`true`
returned), denied with a boolean `false` returned, or denied with the
configured `Forbidden` exception raised. -/
inductive EnforceResult where
  | allowed
  | denied
  | forbidden
deriving DecidableEq, Repr

/-- Modelled from the spec: the Enforcer (missing
`heat/common/policy.py`) — it owns the cached Rule Set, a loaded flag, a
scope identifier by which "rules are namespaced", the configured default
rule, and whether the caller "opted into exception semantics" (`exc`
configured as the `Forbidden` exception, or `None`). -/
structure Enforcer where
  rules : Rules
  loaded : Bool
  scope : String
  default_rule : Check
  exc : Bool
deriving Repr

/-- Modelled from the spec: `load_rules(force_reload=False)` — "if not
yet loaded or `force_reload` is true, re-reads the rule source and
atomically replaces the in-memory Rule Set; otherwise a no-op". -/
def Enforcer.load_rules (e : Enforcer) (source : Rules)
    (force_reload : Bool) : Enforcer :=
  if ¬ e.loaded ∨ force_reload then
    { e with rules := source, loaded := true }
  else e

/-- Modelled from the spec: `set_rules(rules, overwrite=False)` — "if
`overwrite`, replaces the entire Rule Set with the given mapping; if
not, merges given entries into the existing mapping, with given entries
taking precedence on key collision". -/
def Enforcer.set_rules (e : Enforcer) (new : Rules) (overwrite : Bool) :
    Enforcer :=
  if overwrite then { e with rules := new }
  else { e with rules := Rules.update e.rules new }

/-- Modelled from the spec: `clear()` — "resets the Rule Set to
empty". -/
def Enforcer.clear (e : Enforcer) : Enforcer :=
  { e with rules := [] }

/-- Modelled from the spec: rule resolution — "given an action name,
look up its Rule in the active Rule Set; if absent, use the configured
default rule", the lookup key being namespaced by the scope. -/
def Enforcer.activeRule (e : Enforcer) (action : String) : Check :=
  match Rules.lookup e.rules (e.scope ++ ":" ++ action) with
  | some c => c
  | none => e.default_rule

/-- Modelled from the spec: `enforce(context, action, target)` (missing
`heat/common/policy.py`) — resolve the scope-namespaced action to its
rule; evaluate; on denial raise "a Forbidden signal when `exc` is
configured", "otherwise return boolean". -/
def Enforcer.enforce (fuel : Nat) (e : Enforcer) (ctx : Context)
    (action : String) (target : Target) : EnforceResult :=
  if Check.eval e.scope fuel e.rules ctx target (e.activeRule action) then
    EnforceResult.allowed
  else if e.exc then EnforceResult.forbidden
  else EnforceResult.denied

/-! ## Helper lemmas -/

lemma Rules.lookup_insert_self (rs : Rules) (k : String) (c : Check) :
    Rules.lookup (Rules.insert rs k c) k = some c := by
  induction rs with
  | nil => simp [Rules.insert, Rules.lookup]
  | cons hd tl ih =>
      obtain ⟨k0, v0⟩ := hd
      by_cases h : k0 = k <;> simp [Rules.insert, Rules.lookup, h, ih]

lemma Rules.lookup_insert_of_ne (rs : Rules) (k key : String) (c : Check)
    (h : k ≠ key) :
    Rules.lookup (Rules.insert rs k c) key = Rules.lookup rs key := by
  induction rs with
  | nil => simp [Rules.insert, Rules.lookup, h]
  | cons hd tl ih =>
      obtain ⟨k0, v0⟩ := hd
      by_cases h0 : k0 = k
      · subst h0
        simp [Rules.insert, Rules.lookup, h]
      · simp [Rules.insert, Rules.lookup, h0, ih]

lemma Rules.lookup_eq_none (rs : Rules) (k : String)
    (h : k ∉ rs.map Prod.fst) :
    Rules.lookup rs k = none := by
  induction rs with
  | nil => simp [Rules.lookup]
  | cons hd tl ih =>
      obtain ⟨k0, v0⟩ := hd
      simp only [List.map_cons, List.mem_cons, not_or] at h
      simp [Rules.lookup, Ne.symm h.1, ih h.2]

lemma Rules.lookup_update_of_none (rs new : Rules) (k : String)
    (h : Rules.lookup new k = none) :
    Rules.lookup (Rules.update rs new) k = Rules.lookup rs k := by
  induction new generalizing rs with
  | nil => simp [Rules.update]
  | cons hd rest ih =>
      obtain ⟨k0, v0⟩ := hd
      simp only [Rules.lookup] at h
      by_cases h0 : k0 = k
      · simp [h0] at h
      · simp only [h0, if_false] at h
        rw [Rules.update, ih (Rules.insert rs k0 v0) h,
          Rules.lookup_insert_of_ne rs k0 k v0 h0]

lemma Rules.lookup_update_of_some (rs new : Rules) (k : String) (c : Check)
    (hnd : (new.map Prod.fst).Nodup) (h : Rules.lookup new k = some c) :
    Rules.lookup (Rules.update rs new) k = some c := by
  induction new generalizing rs with
  | nil => simp [Rules.lookup] at h
  | cons hd rest ih =>
      obtain ⟨k0, v0⟩ := hd
      simp only [List.map_cons, List.nodup_cons] at hnd
      by_cases h0 : k0 = k
      · rw [Rules.lookup, if_pos h0] at h
        injection h with hv
        have hk : k ∉ rest.map Prod.fst := h0 ▸ hnd.1
        rw [Rules.update,
          Rules.lookup_update_of_none _ _ _ (Rules.lookup_eq_none rest k hk),
          ← h0, Rules.lookup_insert_self, hv]
      · rw [Rules.lookup, if_neg h0] at h
        rw [Rules.update]
        exact ih (Rules.insert rs k0 v0) hnd.2 h

lemma Check.eval_insert_not_scoped (scope k : String) (c0 : Check)
    (hk : ¬ (scope ++ ":").data <+: k.data) :
    ∀ (fuel : Nat) (rules : Rules) (ctx : Context) (target : Target)
      (c : Check),
      Check.eval scope fuel (Rules.insert rules k c0) ctx target c =
        Check.eval scope fuel rules ctx target c := by
  have hne : ∀ x : String, k ≠ scope ++ ":" ++ x := by
    intro x h
    apply hk
    rw [h]
    exact List.prefix_append (scope ++ ":").data x.data
  intro fuel
  induction fuel using Nat.strong_induction_on with
  | _ fuel ihf =>
    intro rules ctx target c
    induction c with
    | trueCheck => simp [Check.eval]
    | falseCheck => simp [Check.eval]
    | roleCheck role => simp [Check.eval]
    | fieldCheck field value => simp [Check.eval]
    | unknownCheck => simp [Check.eval]
    | andCheck l r ihl ihr => simp only [Check.eval, ihl, ihr]
    | orCheck l r ihl ihr => simp only [Check.eval, ihl, ihr]
    | notCheck child ih => simp only [Check.eval, ih]
    | ruleCheck name =>
        cases fuel with
        | zero => simp [Check.eval]
        | succ f =>
            simp only [Check.eval,
              Rules.lookup_insert_of_ne rules k _ c0 (hne name)]
            cases hl : Rules.lookup rules (scope ++ ":" ++ name) with
            | none => rfl
            | some body =>
                exact ihf f (Nat.lt_succ_self f) rules ctx target body

/-! ## Claim theorems -/

/-- C1: for every firewall resource (Firewall, FirewallPolicy,
FirewallRule), if the delete API call raises a client exception whose
status code is 404, `handle_delete` swallows the exception and the
delete completes as success (no exception propagated); and the
delete-confirmation `TaskRunner` is invoked exactly when the delete API
call raised no exception at all. -/
theorem handle_delete_notfound_is_success (client : NeutronClient)
    (rid : String) (ex : NeutronClientException) :
    (client.delete_firewall rid = Except.error ex → ex.status_code = 404 →
      Firewall.handle_delete client rid = DeleteOutcome.completed false) ∧
    (Firewall.handle_delete client rid = DeleteOutcome.completed true ↔
      client.delete_firewall rid = Except.ok ()) ∧
    (client.delete_firewall_policy rid = Except.error ex →
      ex.status_code = 404 →
      FirewallPolicy.handle_delete client rid = DeleteOutcome.completed false) ∧
    (FirewallPolicy.handle_delete client rid = DeleteOutcome.completed true ↔
      client.delete_firewall_policy rid = Except.ok ()) ∧
    (client.delete_firewall_rule rid = Except.error ex →
      ex.status_code = 404 →
      FirewallRule.handle_delete client rid = DeleteOutcome.completed false) ∧
    (FirewallRule.handle_delete client rid = DeleteOutcome.completed true ↔
      client.delete_firewall_rule rid = Except.ok ()) := by
  unfold Firewall.handle_delete FirewallPolicy.handle_delete
    FirewallRule.handle_delete
  refine ⟨?_, ?_, ?_, ?_, ?_, ?_⟩
  · intro h h404
    simp [h, h404]
  · cases hc : client.delete_firewall rid with
    | ok u => cases u; simp [hc]
    | error e => by_cases h : e.status_code ≠ 404 <;> simp [hc, h]
  · intro h h404
    simp [h, h404]
  · cases hc : client.delete_firewall_policy rid with
    | ok u => cases u; simp [hc]
    | error e => by_cases h : e.status_code ≠ 404 <;> simp [hc, h]
  · intro h h404
    simp [h, h404]
  · cases hc : client.delete_firewall_rule rid with
    | ok u => cases u; simp [hc]
    | error e => by_cases h : e.status_code ≠ 404 <;> simp [hc, h]

/-- Witness for C1: a concrete client whose delete calls all report 404
is handled as success for all three resources, and a concrete client
whose delete calls succeed runs the confirm-delete task runner. -/
theorem handle_delete_notfound_is_success_witness :
    (Firewall.handle_delete
        ⟨fun _ => Except.error ⟨404⟩, fun _ => Except.error ⟨404⟩,
          fun _ => Except.error ⟨404⟩⟩ "fw1" =
      DeleteOutcome.completed false) ∧
    (FirewallPolicy.handle_delete
        ⟨fun _ => Except.error ⟨404⟩, fun _ => Except.error ⟨404⟩,
          fun _ => Except.error ⟨404⟩⟩ "fw1" =
      DeleteOutcome.completed false) ∧
    (FirewallRule.handle_delete
        ⟨fun _ => Except.error ⟨404⟩, fun _ => Except.error ⟨404⟩,
          fun _ => Except.error ⟨404⟩⟩ "fw1" =
      DeleteOutcome.completed false) ∧
    (Firewall.handle_delete
        ⟨fun _ => Except.ok (), fun _ => Except.ok (),
          fun _ => Except.ok ()⟩ "fw1" =
      DeleteOutcome.completed true) :=
  ⟨(handle_delete_notfound_is_success
      ⟨fun _ => Except.error ⟨404⟩, fun _ => Except.error ⟨404⟩,
        fun _ => Except.error ⟨404⟩⟩ "fw1" ⟨404⟩).1 rfl rfl,
   (handle_delete_notfound_is_success
      ⟨fun _ => Except.error ⟨404⟩, fun _ => Except.error ⟨404⟩,
        fun _ => Except.error ⟨404⟩⟩ "fw1" ⟨404⟩).2.2.1 rfl rfl,
   (handle_delete_notfound_is_success
      ⟨fun _ => Except.error ⟨404⟩, fun _ => Except.error ⟨404⟩,
        fun _ => Except.error ⟨404⟩⟩ "fw1" ⟨404⟩).2.2.2.2.1 rfl rfl,
   ((handle_delete_notfound_is_success
      ⟨fun _ => Except.ok (), fun _ => Except.ok (),
        fun _ => Except.ok ()⟩ "fw1" ⟨404⟩).2.1).mpr rfl⟩

/-- C8: for every firewall resource, if the delete API call raises a
client exception whose status code is not 404, `handle_delete` re-raises
that same exception (so the failure is propagated, not swallowed, and no
delete-confirmation task runner is started). -/
theorem handle_delete_propagates_non_404 (client : NeutronClient)
    (rid : String) (ex : NeutronClientException) (h404 : ex.status_code ≠ 404) :
    (client.delete_firewall rid = Except.error ex →
      Firewall.handle_delete client rid = DeleteOutcome.raised ex) ∧
    (client.delete_firewall_policy rid = Except.error ex →
      FirewallPolicy.handle_delete client rid = DeleteOutcome.raised ex) ∧
    (client.delete_firewall_rule rid = Except.error ex →
      FirewallRule.handle_delete client rid = DeleteOutcome.raised ex) := by
  unfold Firewall.handle_delete FirewallPolicy.handle_delete
    FirewallRule.handle_delete
  refine ⟨fun h => ?_, fun h => ?_, fun h => ?_⟩ <;>
    simp [h, h404]

/-- Witness for C8: a concrete client whose delete calls all raise a 500
client error makes every `handle_delete` re-raise that error. -/
theorem handle_delete_propagates_non_404_witness :
    (Firewall.handle_delete
        ⟨fun _ => Except.error ⟨500⟩, fun _ => Except.error ⟨500⟩,
          fun _ => Except.error ⟨500⟩⟩ "fw1" =
      DeleteOutcome.raised ⟨500⟩) ∧
    (FirewallPolicy.handle_delete
        ⟨fun _ => Except.error ⟨500⟩, fun _ => Except.error ⟨500⟩,
          fun _ => Except.error ⟨500⟩⟩ "fw1" =
      DeleteOutcome.raised ⟨500⟩) ∧
    (FirewallRule.handle_delete
        ⟨fun _ => Except.error ⟨500⟩, fun _ => Except.error ⟨500⟩,
          fun _ => Except.error ⟨500⟩⟩ "fw1" =
      DeleteOutcome.raised ⟨500⟩) :=
  ⟨(handle_delete_propagates_non_404
      ⟨fun _ => Except.error ⟨500⟩, fun _ => Except.error ⟨500⟩,
        fun _ => Except.error ⟨500⟩⟩ "fw1" ⟨500⟩ (by decide)).1 rfl,
   (handle_delete_propagates_non_404
      ⟨fun _ => Except.error ⟨500⟩, fun _ => Except.error ⟨500⟩,
        fun _ => Except.error ⟨500⟩⟩ "fw1" ⟨500⟩ (by decide)).2.1 rfl,
   (handle_delete_propagates_non_404
      ⟨fun _ => Except.error ⟨500⟩, fun _ => Except.error ⟨500⟩,
        fun _ => Except.error ⟨500⟩⟩ "fw1" ⟨500⟩ (by decide)).2.2 rfl⟩

/-- C10: for every firewall resource, `handle_update` with an empty
property diff makes no update API call (so any API-effect function
leaves the system state unchanged), and with a non-empty diff makes
exactly one update call carrying exactly the diff and the resource's
physical identifier. -/
theorem handle_update_frame {α β : Type} (js : α) (td : β) (rid : String)
    (d : PropDiff) :
    (d = [] →
      Firewall.handle_update js td rid d = [] ∧
      FirewallPolicy.handle_update js td rid d = [] ∧
      FirewallRule.handle_update js td rid d = [] ∧
      ∀ (σ : Type) (api : UpdateCall → σ → σ) (s : σ),
        applyUpdateCalls api (Firewall.handle_update js td rid d) s = s ∧
        applyUpdateCalls api (FirewallPolicy.handle_update js td rid d) s = s ∧
        applyUpdateCalls api (FirewallRule.handle_update js td rid d) s = s) ∧
    (d ≠ [] →
      Firewall.handle_update js td rid d =
        [{ resource_id := rid, bodyKey := "firewall", prop_diff := d }] ∧
      FirewallPolicy.handle_update js td rid d =
        [{ resource_id := rid, bodyKey := "firewall_policy",
           prop_diff := d }] ∧
      FirewallRule.handle_update js td rid d =
        [{ resource_id := rid, bodyKey := "firewall_rule",
           prop_diff := d }]) := by
  constructor
  · intro hd
    subst hd
    simp [Firewall.handle_update, FirewallPolicy.handle_update,
      FirewallRule.handle_update, applyUpdateCalls]
  · intro hd
    have hne : ¬ d.isEmpty := by
      cases d with
      | nil => exact absurd rfl hd
      | cons a l => simp [List.isEmpty]
    simp [Firewall.handle_update, FirewallPolicy.handle_update,
      FirewallRule.handle_update, hne]

/-- Witness for C10: with an empty diff no call is made and a concrete
state is untouched; with the diff `{'name': 'n2'}` exactly one call
carrying that diff and the id `'fw1'` is made. -/
theorem handle_update_frame_witness :
    (Firewall.handle_update () () "fw1" ([] : PropDiff) = [] ∧
      applyUpdateCalls (fun _ n => n + 1)
        (Firewall.handle_update () () "fw1" ([] : PropDiff)) (0 : Nat) = 0) ∧
    FirewallRule.handle_update () () "fw1" [("name", "n2")] =
      [{ resource_id := "fw1", bodyKey := "firewall_rule",
         prop_diff := [("name", "n2")] }] :=
  ⟨⟨((handle_update_frame () () "fw1" ([] : PropDiff)).1 rfl).1,
    (((handle_update_frame () () "fw1" ([] : PropDiff)).1 rfl).2.2.2
      Nat (fun _ n => n + 1) 0).1⟩,
   ((handle_update_frame () () "fw1" [("name", "n2")]).2
      (List.cons_ne_nil _ _)).2.2⟩

/-- C2: under a role-based rule for the scoped action, `enforce` allows
exactly when the context's role collection contains the required role;
a context without the role gets the opposite outcome (a boolean `false`,
or `Forbidden` when `exc` is configured), and a negated role rule has
the opposite polarity. -/
theorem enforce_role_rule_iff (fuel : Nat) (e : Enforcer) (ctx : Context)
    (a : String) (t : Target) (R : String) :
    (Rules.lookup e.rules (e.scope ++ ":" ++ a) = some (Check.roleCheck R) →
      (Enforcer.enforce fuel e ctx a t = EnforceResult.allowed ↔
        R ∈ ctx.roles) ∧
      (e.exc = false →
        (Enforcer.enforce fuel e ctx a t = EnforceResult.denied ↔
          R ∉ ctx.roles)) ∧
      (e.exc = true →
        (Enforcer.enforce fuel e ctx a t = EnforceResult.forbidden ↔
          R ∉ ctx.roles))) ∧
    (Rules.lookup e.rules (e.scope ++ ":" ++ a) =
        some (Check.notCheck (Check.roleCheck R)) →
      (Enforcer.enforce fuel e ctx a t = EnforceResult.allowed ↔
        R ∉ ctx.roles)) := by
  constructor
  · intro h
    have hrule : e.activeRule a = Check.roleCheck R := by
      unfold Enforcer.activeRule
      rw [h]
    by_cases hm : R ∈ ctx.roles
    · have hc : ctx.roles.contains R = true := List.elem_iff.mpr hm
      cases he : e.exc <;>
        simp [Enforcer.enforce, hrule, Check.eval, hc, hm, he]
    · have hc : ctx.roles.contains R = false := by
        simp [List.elem_iff, hm]
      cases he : e.exc <;>
        simp [Enforcer.enforce, hrule, Check.eval, hc, hm, he]
  · intro h
    have hrule : e.activeRule a = Check.notCheck (Check.roleCheck R) := by
      unfold Enforcer.activeRule
      rw [h]
    by_cases hm : R ∈ ctx.roles
    · have hc : ctx.roles.contains R = true := List.elem_iff.mpr hm
      cases he : e.exc <;>
        simp [Enforcer.enforce, hrule, Check.eval, hc, hm, he]
    · have hc : ctx.roles.contains R = false := by
        simp [List.elem_iff, hm]
      cases he : e.exc <;>
        simp [Enforcer.enforce, hrule, Check.eval, hc, hm, he]

/-- Witness for C2: with the rule `cloudformation:DescribeStackResource
-> role:heat_stack_user`, a context holding the role is allowed and a
context without it is denied. -/
theorem enforce_role_rule_iff_witness :
    (Enforcer.enforce 1
        ⟨[("cloudformation:DescribeStackResource",
            Check.roleCheck "heat_stack_user")], true, "cloudformation",
          Check.falseCheck, false⟩
        ⟨["heat_stack_user"], []⟩ "DescribeStackResource" [] =
      EnforceResult.allowed ↔ "heat_stack_user" ∈ ["heat_stack_user"]) ∧
    (Enforcer.enforce 1
        ⟨[("cloudformation:DescribeStackResource",
            Check.roleCheck "heat_stack_user")], true, "cloudformation",
          Check.falseCheck, false⟩
        ⟨["not_a_stack_user"], []⟩ "DescribeStackResource" [] =
      EnforceResult.denied ↔ "heat_stack_user" ∉ ["not_a_stack_user"]) :=
  ⟨((enforce_role_rule_iff 1
      ⟨[("cloudformation:DescribeStackResource",
          Check.roleCheck "heat_stack_user")], true, "cloudformation",
        Check.falseCheck, false⟩
      ⟨["heat_stack_user"], []⟩ "DescribeStackResource" []
      "heat_stack_user").1 (by decide)).1,
   (((enforce_role_rule_iff 1
      ⟨[("cloudformation:DescribeStackResource",
          Check.roleCheck "heat_stack_user")], true, "cloudformation",
        Check.falseCheck, false⟩
      ⟨["not_a_stack_user"], []⟩ "DescribeStackResource" []
      "heat_stack_user").1 (by decide)).2.1) rfl⟩

/-- C3: `enforce` yields the `Forbidden` exception only when `exc` is
configured; with `exc` off it returns a boolean (never raises); with
`exc` on, every denial raises `Forbidden` instead of returning a
boolean `false`. -/
theorem enforce_exc_semantics (fuel : Nat) (e : Enforcer) (ctx : Context)
    (a : String) (t : Target) :
    (e.exc = false →
      Enforcer.enforce fuel e ctx a t ≠ EnforceResult.forbidden) ∧
    (e.exc = true →
      Enforcer.enforce fuel e ctx a t ≠ EnforceResult.denied) ∧
    (Enforcer.enforce fuel e ctx a t = EnforceResult.forbidden →
      e.exc = true) := by
  unfold Enforcer.enforce
  by_cases hev : Check.eval e.scope fuel e.rules ctx t (e.activeRule a) <;>
    cases he : e.exc <;> simp [hev, he]

/-- Witness for C3: a concrete enforcer with `exc` configured and an
always-false rule raises rather than returning a boolean denial, and
the same enforcer with `exc = None` never raises. -/
theorem enforce_exc_semantics_witness :
    (Enforcer.enforce 1
        ⟨[("cloudformation:CreateStack", Check.falseCheck)], true,
          "cloudformation", Check.trueCheck, true⟩
        ⟨[], []⟩ "CreateStack" [] ≠ EnforceResult.denied) ∧
    (Enforcer.enforce 1
        ⟨[("cloudformation:CreateStack", Check.falseCheck)], true,
          "cloudformation", Check.trueCheck, false⟩
        ⟨[], []⟩ "CreateStack" [] ≠ EnforceResult.forbidden) :=
  ⟨(enforce_exc_semantics 1
      ⟨[("cloudformation:CreateStack", Check.falseCheck)], true,
        "cloudformation", Check.trueCheck, true⟩
      ⟨[], []⟩ "CreateStack" []).2.1 rfl,
   (enforce_exc_semantics 1
      ⟨[("cloudformation:CreateStack", Check.falseCheck)], true,
        "cloudformation", Check.trueCheck, false⟩
      ⟨[], []⟩ "CreateStack" []).1 rfl⟩

/-- C4: on an enforcer whose rules are already loaded,
`load_rules(force_reload=False)` is a no-op — the whole enforcer,
including any entries added afterwards by `set_rules`, is retained and
nothing is merged in from the source — while
`load_rules(force_reload=True)` wholesale replaces the in-memory Rule
Set with the source, discarding previously set entries. -/
theorem load_rules_semantics (e : Enforcer) (src extra : Rules) (ow : Bool)
    (h : e.loaded = true) :
    Enforcer.load_rules e src false = e ∧
    (Enforcer.load_rules (Enforcer.set_rules e extra ow) src false).rules =
      (Enforcer.set_rules e extra ow).rules ∧
    (Enforcer.load_rules e src true).rules = src := by
  have hl : (Enforcer.set_rules e extra ow).loaded = true := by
    unfold Enforcer.set_rules
    cases ow <;> simp [h]
  unfold Enforcer.load_rules
  simp [h, hl]

/-- Witness for C4: a loaded enforcer holding the rule added by
`set_rules` keeps it across `load_rules(False)` and loses it to the
source on `load_rules(True)`. -/
theorem load_rules_semantics_witness :
    Enforcer.load_rules
        ⟨[("s:a", Check.trueCheck)], true, "s", Check.falseCheck, false⟩
        [("x", Check.falseCheck)] false =
      ⟨[("s:a", Check.trueCheck)], true, "s", Check.falseCheck, false⟩ ∧
    (Enforcer.load_rules
        (Enforcer.set_rules
          ⟨[("s:a", Check.trueCheck)], true, "s", Check.falseCheck, false⟩
          [("test_heat_rule", Check.trueCheck)] false)
        [("x", Check.falseCheck)] false).rules =
      (Enforcer.set_rules
        ⟨[("s:a", Check.trueCheck)], true, "s", Check.falseCheck, false⟩
        [("test_heat_rule", Check.trueCheck)] false).rules ∧
    (Enforcer.load_rules
        ⟨[("s:a", Check.trueCheck)], true, "s", Check.falseCheck, false⟩
        [("x", Check.falseCheck)] true).rules = [("x", Check.falseCheck)] :=
  load_rules_semantics
    ⟨[("s:a", Check.trueCheck)], true, "s", Check.falseCheck, false⟩
    [("x", Check.falseCheck)] [("test_heat_rule", Check.trueCheck)] false rfl

/-- C5: `set_rules(rules, overwrite=True)` makes the Rule Set equal
exactly the given mapping; `set_rules(rules, overwrite=False)` merges
the given entries into the existing mapping — every given key maps to
its given rule (given entries take precedence on collision) and every
other key keeps its existing binding (the result is the union). -/
theorem set_rules_semantics (e : Enforcer) (new : Rules)
    (hnd : (new.map Prod.fst).Nodup) :
    (Enforcer.set_rules e new true).rules = new ∧
    (∀ k c, Rules.lookup new k = some c →
      Rules.lookup (Enforcer.set_rules e new false).rules k = some c) ∧
    (∀ k, Rules.lookup new k = none →
      Rules.lookup (Enforcer.set_rules e new false).rules k =
        Rules.lookup e.rules k) := by
  refine ⟨by simp [Enforcer.set_rules], ?_, ?_⟩
  · intro k c hk
    simp only [Enforcer.set_rules, Bool.false_eq_true, if_false]
    exact Rules.lookup_update_of_some e.rules new k c hnd hk
  · intro k hk
    simp only [Enforcer.set_rules, Bool.false_eq_true, if_false]
    exact Rules.lookup_update_of_none e.rules new k hk

/-- Witness for C5: overwriting with the one-entry mapping leaves
exactly that mapping; merging it into an existing set keeps the new
entry and the untouched old one. -/
theorem set_rules_semantics_witness :
    (Enforcer.set_rules
        ⟨[("old", Check.trueCheck)], true, "s", Check.falseCheck, false⟩
        [("test_heat_rule", Check.falseCheck)] true).rules =
      [("test_heat_rule", Check.falseCheck)] ∧
    Rules.lookup
        (Enforcer.set_rules
          ⟨[("old", Check.trueCheck)], true, "s", Check.falseCheck, false⟩
          [("test_heat_rule", Check.falseCheck)] false).rules
        "test_heat_rule" = some Check.falseCheck ∧
    Rules.lookup
        (Enforcer.set_rules
          ⟨[("old", Check.trueCheck)], true, "s", Check.falseCheck, false⟩
          [("test_heat_rule", Check.falseCheck)] false).rules
        "old" =
      Rules.lookup [("old", Check.trueCheck)] "old" :=
  ⟨(set_rules_semantics
      ⟨[("old", Check.trueCheck)], true, "s", Check.falseCheck, false⟩
      [("test_heat_rule", Check.falseCheck)] (by simp)).1,
   (set_rules_semantics
      ⟨[("old", Check.trueCheck)], true, "s", Check.falseCheck, false⟩
      [("test_heat_rule", Check.falseCheck)] (by simp)).2.1
     "test_heat_rule" Check.falseCheck (by decide),
   (set_rules_semantics
      ⟨[("old", Check.trueCheck)], true, "s", Check.falseCheck, false⟩
      [("test_heat_rule", Check.falseCheck)] (by simp)).2.2
     "old" (by decide)⟩

/-- C6: rule lookup is namespaced by the enforcer's scope: registering a
rule under any key outside the active scope's namespace (in particular
any key of another scope, such as `cloudwatch:...` against an active
`cloudformation` scope) leaves the outcome of `enforce` unchanged, for
every rule set, context, action and target — the decision only consults
rules registered under the active scope. -/
theorem enforce_scope_independent (fuel : Nat) (e : Enforcer)
    (ctx : Context) (a : String) (t : Target) (k : String) (c : Check)
    (hk : ¬ (e.scope ++ ":").data <+: k.data) :
    Enforcer.enforce fuel { e with rules := Rules.insert e.rules k c } ctx
        a t =
      Enforcer.enforce fuel e ctx a t := by
  have hne : k ≠ e.scope ++ ":" ++ a := by
    intro h
    apply hk
    rw [h]
    exact List.prefix_append (e.scope ++ ":").data a.data
  have hlook : Rules.lookup (Rules.insert e.rules k c)
      (e.scope ++ ":" ++ a) = Rules.lookup e.rules (e.scope ++ ":" ++ a) :=
    Rules.lookup_insert_of_ne e.rules k _ c hne
  have hrule :
      Enforcer.activeRule { e with rules := Rules.insert e.rules k c } a =
        e.activeRule a := by
    unfold Enforcer.activeRule
    simp [hlook]
  unfold Enforcer.enforce
  rw [hrule, Check.eval_insert_not_scoped e.scope k c hk fuel e.rules ctx t
    (e.activeRule a)]

/-- Witness for C6: registering a rule under the `cloudwatch` scope does
not change the `cloudformation`-scoped decision for the same action,
here with an active rule that itself indirects through a generic-rule
reference. -/
theorem enforce_scope_independent_witness :
    Enforcer.enforce 2
        { (⟨[("cloudformation:ListStacks", Check.ruleCheck "base"),
             ("cloudformation:base", Check.roleCheck "admin")], true,
            "cloudformation", Check.falseCheck, false⟩ : Enforcer) with
          rules := Rules.insert
            [("cloudformation:ListStacks", Check.ruleCheck "base"),
             ("cloudformation:base", Check.roleCheck "admin")]
            "cloudwatch:base" Check.trueCheck }
        ⟨["admin"], []⟩ "ListStacks" [] =
      Enforcer.enforce 2
        ⟨[("cloudformation:ListStacks", Check.ruleCheck "base"),
          ("cloudformation:base", Check.roleCheck "admin")], true,
          "cloudformation", Check.falseCheck, false⟩
        ⟨["admin"], []⟩ "ListStacks" [] :=
  enforce_scope_independent 2
    ⟨[("cloudformation:ListStacks", Check.ruleCheck "base"),
      ("cloudformation:base", Check.roleCheck "admin")], true,
      "cloudformation", Check.falseCheck, false⟩
    ⟨["admin"], []⟩ "ListStacks" [] "cloudwatch:base"
    Check.trueCheck (by decide)

/-- C7: an action name absent from the active Rule Set falls back to the
configured default rule; with the default rule the always-false check
and exceptions disabled, `enforce` returns `false` for every context
and target. -/
theorem enforce_default_rule_false (fuel : Nat) (e : Enforcer)
    (ctx : Context) (a : String) (t : Target)
    (habsent : Rules.lookup e.rules (e.scope ++ ":" ++ a) = none)
    (hdef : e.default_rule = Check.falseCheck)
    (hexc : e.exc = false) :
    Enforcer.enforce fuel e ctx a t = EnforceResult.denied := by
  unfold Enforcer.enforce Enforcer.activeRule
  rw [habsent]
  simp [hdef, hexc, Check.eval]

/-- Witness for C7: the action `no_such_action`, unknown to the loaded
rules, is denied under the always-false default rule with `exc=None`. -/
theorem enforce_default_rule_false_witness :
    Enforcer.enforce 1
        ⟨[("cloudformation:ListStacks", Check.trueCheck)], true,
          "cloudformation", Check.falseCheck, false⟩
        ⟨["not_a_stack_user"], []⟩ "no_such_action" [] =
      EnforceResult.denied :=
  enforce_default_rule_false 1
    ⟨[("cloudformation:ListStacks", Check.trueCheck)], true,
      "cloudformation", Check.falseCheck, false⟩
    ⟨["not_a_stack_user"], []⟩ "no_such_action" [] (by decide) rfl rfl

/-- C9: `clear()` resets the Rule Set to the empty mapping: after
`load_rules(force_reload=True)` followed by `clear()`, the Rule Set is
`{}` regardless of what the rule source contained. -/
theorem clear_resets_rules (e : Enforcer) (src : Rules) :
    (Enforcer.clear (Enforcer.load_rules e src true)).rules = [] := rfl
